import Mathlib

/-!
Shallow embedding of the kyverno validation engine
(`pkg/engine/validation.go` and the generate filter) and proofs about its
rule-dispatch, forEach aggregation, pattern-status mapping, pod-security
kind dispatch, exception handling and response accounting.

External collaborators (the JMESPath evaluator, the pattern matcher in
`pkg/engine/validate`, the PSS library, context loading) are abstracted as
parameters carrying their possible outcomes; the control flow of
`validation.go` itself is translated line by line.
-/

namespace Kyverno

/-- Rule response status, `engineapi.RuleStatus`
(pass / fail / skip / error / warn). -/
inductive RuleStatus where
  | Pass
  | Fail
  | Skip
  | Error
  | Warn
deriving DecidableEq, Repr

/-- `engineapi.RuleResponse`, restricted to the fields the validation engine
writes: rule name, message and status (the rule type is always Validation
here, and execution stats are timing only). -/
structure RuleResponse where
  name : String
  message : String
  status : RuleStatus
deriving DecidableEq, Repr

/-- The slice of `kyvernov1.Rule` the validation control flow reads:
the rule name and `Validation.Message`. -/
structure Rule where
  name : String
  validationMessage : String
deriving DecidableEq, Repr

/-- Modelled from the spec: the helper `ruleResponse` (outside the provided
sources) builds a RuleResponse carrying the rule name, the given message and
the given status (spec, RuleResponse: rule name, kind tag, status, message). -/
def ruleResponse (rule : Rule) (msg : String) (status : RuleStatus) : RuleResponse :=
  { name := rule.name, message := msg, status := status }

/-- Modelled from the spec: the helper `ruleError` (outside the provided
sources) builds a RuleResponse of status Error whose message combines the
fixed message with the underlying error text (spec error taxonomy:
unrecoverable internal failure reports Error). -/
def ruleError (rule : Rule) (msg : String) (err : String) : RuleResponse :=
  ruleResponse rule (msg ++ ": " ++ err) RuleStatus.Error

/-! ## forEach element validation (`validator.validateElements`)

The nested `foreachValidator.validate(ctx)` call and the two fallible setup
steps (`addElementToContext`, `newForEachValidator`) are abstracted per
element: an `ElemEval` records how that element's iteration behaves. -/

/-- Outcome of processing one element of a forEach list:
the element is Go `nil`; `addElementToContext` fails; `newForEachValidator`
fails; or the nested validator returns `r` (`none` models a nil response). -/
inductive ElemEval where
  | nilElem
  | addErr (msg : String)
  | mkErr (msg : String)
  | res (r : Option RuleResponse)
deriving DecidableEq, Repr

/-- Loop body of `validator.validateElements`: `total` is `len(elements)`,
`applyCount` and `index` are the loop state. Mirrors the Go control flow:
nil element → continue; context/validator errors → return Error;
nested Skip (or nil response) → continue; nested non-Pass → return, except a
non-terminal Error which continues; nested Pass → `applyCount++`. -/
def validateElementsLoop (rule : Rule) (total : Nat) :
    Nat → Nat → List ElemEval → RuleResponse × Nat
  | applyCount, _, [] => (ruleResponse rule "" RuleStatus.Pass, applyCount)
  | applyCount, index, e :: rest =>
    match e with
    | ElemEval.nilElem => validateElementsLoop rule total applyCount (index + 1) rest
    | ElemEval.addErr m => (ruleError rule "failed to process foreach" m, applyCount)
    | ElemEval.mkErr m => (ruleError rule "failed to create foreach validator" m, applyCount)
    | ElemEval.res none => validateElementsLoop rule total applyCount (index + 1) rest
    | ElemEval.res (some r) =>
      if r.status = RuleStatus.Skip then
        validateElementsLoop rule total applyCount (index + 1) rest
      else if r.status ≠ RuleStatus.Pass then
        if r.status = RuleStatus.Error then
          if index < total - 1 then
            validateElementsLoop rule total applyCount (index + 1) rest
          else (ruleResponse rule ("validation failure: " ++ r.message) r.status, applyCount)
        else (ruleResponse rule ("validation failure: " ++ r.message) r.status, applyCount)
      else validateElementsLoop rule total (applyCount + 1) (index + 1) rest

/-- `validator.validateElements`: runs the loop from index 0 with
`applyCount = 0`; reaching the end of the list yields a Pass response with
an empty message together with the final `applyCount`. -/
def validateElements (rule : Rule) (elements : List ElemEval) : RuleResponse × Nat :=
  validateElementsLoop rule elements.length 0 0 elements

/-! ## forEach block iteration (`validator.validateForEach`) -/

/-- One `foreach` block as seen by `validateForEach`: either its `List`
expression fails to evaluate (`evaluateList` error), or it yields the given
elements. -/
inductive ForEachBlock where
  | evalErr (msg : String)
  | elems (es : List ElemEval)
deriving DecidableEq, Repr

/-- Loop of `validator.validateForEach` over the foreach blocks:
a list-evaluation error is logged and the block skipped; otherwise
`validateElements` runs and any non-Pass response is returned as is;
a Pass adds the block's count to `applyCount`. `Sum.inl` is an early return,
`Sum.inr` the accumulated `applyCount` after all blocks. -/
def validateForEachLoop (rule : Rule) : List ForEachBlock → Nat → Sum RuleResponse Nat
  | [], applyCount => Sum.inr applyCount
  | b :: rest, applyCount =>
    match b with
    | ForEachBlock.evalErr _ => validateForEachLoop rule rest applyCount
    | ForEachBlock.elems es =>
      let rc := validateElements rule es
      if rc.1.status ≠ RuleStatus.Pass then Sum.inl rc.1
      else validateForEachLoop rule rest (applyCount + rc.2)

/-- `validator.validateForEach`: `forEach = none` models a nil
`v.forEach` slice (ranging over it runs zero iterations). When no block
returned early: `applyCount == 0` yields Skip ("rule skipped") — or nil when
the slice itself is nil — and otherwise Pass ("rule passed"). -/
def validateForEach (rule : Rule) (forEach : Option (List ForEachBlock)) :
    Option RuleResponse :=
  match validateForEachLoop rule (forEach.getD []) 0 with
  | Sum.inl resp => some resp
  | Sum.inr applyCount =>
    if applyCount = 0 then
      match forEach with
      | none => none
      | some _ => some (ruleResponse rule "rule skipped" RuleStatus.Skip)
    else some (ruleResponse rule "rule passed" RuleStatus.Pass)

/-- A block "completes" when it does not force an early return from
`validateForEach`: its list expression fails (block skipped) or its
`validateElements` run ends with status Pass. -/
def blockCompletes (rule : Rule) : ForEachBlock → Bool
  | ForEachBlock.evalErr _ => true
  | ForEachBlock.elems es =>
    match (validateElements rule es).1.status with
    | RuleStatus.Pass => true
    | _ => false

/-- Number of elements a block contributes to the accumulated
`applyCount` (0 for a failed list evaluation). -/
def blockApplyCount (rule : Rule) : ForEachBlock → Nat
  | ForEachBlock.evalErr _ => 0
  | ForEachBlock.elems es => (validateElements rule es).2

/-- Recognizes a block whose list expression failed to evaluate. -/
def isEvalErr : ForEachBlock → Bool
  | ForEachBlock.evalErr _ => true
  | _ => false

/-! ## Policy driver (`validateResource`, `addRuleResponse`)

Per-rule processing (`matches`, exception lookup, `processValidationRule`) is
abstracted as a list of `Option RuleResponse`: `none` models a rule for
which the closure returns nil (no validate payload / no match), `some r`
the rule response it produces. -/

/-- `spec.applyRules`: apply One or All rules. -/
inductive ApplyRules where
  | one
  | all
deriving DecidableEq, Repr

/-- The accounting slice of `engineapi.PolicyResponse`: ordered rule
responses and the applied / errored counters. -/
structure PolicyResponse where
  rules : List RuleResponse
  rulesAppliedCount : Nat
  rulesErrorCount : Nat
deriving DecidableEq, Repr

/-- The zero-valued `engineapi.EngineResponse` policy-response slice. -/
def emptyPolicyResponse : PolicyResponse :=
  { rules := [], rulesAppliedCount := 0, rulesErrorCount := 0 }

/-- `addRuleResponse`: Pass or Fail increments the applied counter
(`incrementAppliedCount`), Error increments the error counter
(`incrementErrorCount`); the response is appended to the rule list. -/
def addRuleResponse (resp : PolicyResponse) (r : RuleResponse) : PolicyResponse :=
  if r.status = RuleStatus.Pass ∨ r.status = RuleStatus.Fail then
    { rules := resp.rules ++ [r]
      rulesAppliedCount := resp.rulesAppliedCount + 1
      rulesErrorCount := resp.rulesErrorCount }
  else if r.status = RuleStatus.Error then
    { rules := resp.rules ++ [r]
      rulesAppliedCount := resp.rulesAppliedCount
      rulesErrorCount := resp.rulesErrorCount + 1 }
  else
    { rules := resp.rules ++ [r]
      rulesAppliedCount := resp.rulesAppliedCount
      rulesErrorCount := resp.rulesErrorCount }

/-- The rule loop of `validateResource`: a nil per-rule result is dropped;
otherwise the response is added and, when `applyRules == ApplyOne` and
`RulesAppliedCount > 0`, the loop breaks. -/
def validateLoop (applyRules : ApplyRules) (resp : PolicyResponse) :
    List (Option RuleResponse) → PolicyResponse
  | [] => resp
  | o :: rest =>
    match o with
    | none => validateLoop applyRules resp rest
    | some r =>
      let resp2 := addRuleResponse resp r
      if applyRules = ApplyRules.one ∧ resp2.rulesAppliedCount > 0 then resp2
      else validateLoop applyRules resp2 rest

/-- Resource identity as read by the namespace guard of `validateResource`
(`GetNamespace()` of the unstructured object). -/
structure ResourceId where
  ns : String
deriving DecidableEq, Repr

/-- The slice of the policy `validateResource` reads: namespacedness
(`IsNamespaced()`), the policy namespace and `GetApplyRules()`. -/
structure Policy where
  name : String
  ns : String
  isNamespaced : Bool
  applyRules : ApplyRules
deriving DecidableEq, Repr

/-- The namespace guard applied to each resource slot:
`resource.Object != nil && (resource.GetNamespace() != polNs ||
resource.GetNamespace() == "")`. A `none` resource models a nil Object. -/
def outsideNamespace (res : Option ResourceId) (polNs : String) : Bool :=
  match res with
  | none => false
  | some r => (r.ns != polNs) || (r.ns == "")

/-- `validateResource`: for a namespaced policy, a new or old resource
outside the policy namespace returns the empty response before any rule
runs; otherwise the rule loop executes over the per-rule outcomes. -/
def validateResource (pol : Policy) (newRes oldRes : Option ResourceId)
    (outcomes : List (Option RuleResponse)) : PolicyResponse :=
  if pol.isNamespaced then
    if outsideNamespace newRes pol.ns then emptyPolicyResponse
    else if outsideNamespace oldRes pol.ns then emptyPolicyResponse
    else validateLoop pol.applyRules emptyPolicyResponse outcomes
  else validateLoop pol.applyRules emptyPolicyResponse outcomes

/-- Number of rule responses of status `s` in a list. -/
def countStatus (s : RuleStatus) (rs : List RuleResponse) : Nat :=
  (rs.filter (fun r => decide (r.status = s))).length

/-! ## Pattern matching status mapping (`validator.validatePatterns`)

`validate.MatchPattern` (package `pkg/engine/validate`) is abstracted by a
`MatchResult`: success, a `*validate.PatternError{Path, Skip}` whose
`Error()` text is `msg`, or an error of another type. -/

/-- Result of `validate.MatchPattern` on one pattern. -/
inductive MatchResult where
  | ok
  | patternErr (path : String) (skip : Bool) (msg : String)
  | otherErr (msg : String)
deriving DecidableEq, Repr

/-- `validator.buildErrorMessage`: with an empty `Validation.Message` the
text depends only on rule name, path and the error; otherwise the message
template is substituted (`substMsg` carries the result of
`variables.SubstituteAll` on it), a substitution failure falls back to the
error text, and a successful substitution is suffixed with "." and combined
with path or error. -/
def buildErrorMessage (rule : Rule) (substMsg : Except String String)
    (errMsg : String) (path : String) : String :=
  if rule.validationMessage = "" then
    if path != "" then
      "validation error: rule " ++ rule.name ++ " failed at path " ++ path
    else
      "validation error: rule " ++ rule.name ++ " execution error: " ++ errMsg
  else
    match substMsg with
    | Except.error _ =>
      "validation error: variables substitution error in rule " ++ rule.name
        ++ " execution error: " ++ errMsg
    | Except.ok m =>
      let msg := if m.endsWith "." then m else m ++ "."
      if path != "" then
        "validation error: " ++ msg ++ " rule " ++ rule.name ++ " failed at path " ++ path
      else
        "validation error: " ++ msg ++ " rule " ++ rule.name ++ " execution error: " ++ errMsg

/-- Outcome of the single-pattern branch: a rule response, or the Go
nil-pointer dereference reached when `MatchPattern` returns an error that is
not a `*validate.PatternError` (the failed type assertion leaves `pe` nil
and line `v.buildErrorMessage(err, pe.Path)` dereferences it). -/
inductive PatternOutcome where
  | response (r : RuleResponse)
  | goPanic
deriving DecidableEq, Repr

/-- Single-pattern branch of `validator.validatePatterns`:
match → Pass; `PatternError{Skip: true}` → Skip with the error text;
`Path == ""` → Error; `Path != ""` → Fail (messages via
`buildErrorMessage`). -/
def validatePattern (rule : Rule) (substMsg : Except String String)
    (res : MatchResult) : PatternOutcome :=
  match res with
  | MatchResult.ok =>
    PatternOutcome.response
      (ruleResponse rule ("validation rule '" ++ rule.name ++ "' passed.") RuleStatus.Pass)
  | MatchResult.patternErr path skip msg =>
    if skip then
      PatternOutcome.response (ruleResponse rule msg RuleStatus.Skip)
    else if path = "" then
      PatternOutcome.response
        (ruleResponse rule (buildErrorMessage rule substMsg msg "") RuleStatus.Error)
    else
      PatternOutcome.response
        (ruleResponse rule (buildErrorMessage rule substMsg msg path) RuleStatus.Fail)
  | MatchResult.otherErr _ => PatternOutcome.goPanic

/-- Status of a `PatternOutcome`, when it is a response. -/
def patternStatus (o : PatternOutcome) : Option RuleStatus :=
  match o with
  | PatternOutcome.response r => some r.status
  | PatternOutcome.goPanic => none

/-! ## anyPattern aggregation (`validator.validatePatterns`, anyPattern arm) -/

/-- `buildAnyPatternErrorMessage`: joins the per-entry failure strings and
prefixes the rule's `Validation.Message` (adding "." when missing). -/
def buildAnyPatternErrorMessage (rule : Rule) (errs : List String) : String :=
  let errStr := String.intercalate " " errs
  if rule.validationMessage = "" then
    "validation error: " ++ errStr
  else if rule.validationMessage.endsWith "." then
    "validation error: " ++ rule.validationMessage ++ " " ++ errStr
  else
    "validation error: " ++ rule.validationMessage ++ ". " ++ errStr

/-- Final aggregation after the anyPattern loop: skips without failures →
Skip with the joined skip messages; any failure → Fail with
`buildAnyPatternErrorMessage`; otherwise the fall-through Pass carrying
`Validation.Message`. -/
def anyPatternFinalize (rule : Rule) (skipped failed : List String) : RuleResponse :=
  if skipped.length > 0 ∧ failed.length = 0 then
    ruleResponse rule (String.intercalate " " skipped) RuleStatus.Skip
  else if failed.length > 0 then
    ruleResponse rule (buildAnyPatternErrorMessage rule failed) RuleStatus.Fail
  else
    ruleResponse rule rule.validationMessage RuleStatus.Pass

/-- The anyPattern loop: the first matching entry returns Pass immediately;
a `PatternError` is recorded in the skipped or failed list (message shaped
by Skip / empty Path / non-empty Path); an error of another type is ignored
(the Go type assertion guard). `idx` is the entry index. -/
def anyPatternLoop (rule : Rule) :
    Nat → List MatchResult → List String → List String → RuleResponse
  | _, [], skipped, failed => anyPatternFinalize rule skipped failed
  | idx, r :: rest, skipped, failed =>
    match r with
    | MatchResult.ok =>
      ruleResponse rule
        ("validation rule '" ++ rule.name ++ "' anyPattern[" ++ toString idx ++ "] passed.")
        RuleStatus.Pass
    | MatchResult.patternErr path skip msg =>
      if skip then
        anyPatternLoop rule (idx + 1) rest
          (skipped ++ ["rule " ++ rule.name ++ "[" ++ toString idx ++ "] skipped: " ++ msg])
          failed
      else if path = "" then
        anyPatternLoop rule (idx + 1) rest skipped
          (failed ++ ["rule " ++ rule.name ++ "[" ++ toString idx ++ "] failed: " ++ msg])
      else
        anyPatternLoop rule (idx + 1) rest skipped
          (failed ++ ["rule " ++ rule.name ++ "[" ++ toString idx ++ "] failed at path " ++ path])
    | MatchResult.otherErr _ => anyPatternLoop rule (idx + 1) rest skipped failed

/-- anyPattern arm of `validator.validatePatterns` over the deserialized
entry results. -/
def validateAnyPattern (rule : Rule) (results : List MatchResult) : RuleResponse :=
  anyPatternLoop rule 0 results [] []

/-- Skip-error strings the loop accumulates from `idx` on
(entries with `Skip: true`). -/
def collectSkips (rule : Rule) : Nat → List MatchResult → List String
  | _, [] => []
  | idx, r :: rest =>
    match r with
    | MatchResult.patternErr _ true msg =>
      ("rule " ++ rule.name ++ "[" ++ toString idx ++ "] skipped: " ++ msg)
        :: collectSkips rule (idx + 1) rest
    | _ => collectSkips rule (idx + 1) rest

/-- Failure strings the loop accumulates from `idx` on
(entries with `Skip: false`, shaped by the Path). -/
def collectFails (rule : Rule) : Nat → List MatchResult → List String
  | _, [] => []
  | idx, r :: rest =>
    match r with
    | MatchResult.patternErr path false msg =>
      (if path = "" then "rule " ++ rule.name ++ "[" ++ toString idx ++ "] failed: " ++ msg
       else "rule " ++ rule.name ++ "[" ++ toString idx ++ "] failed at path " ++ path)
        :: collectFails rule (idx + 1) rest
    | _ => collectFails rule (idx + 1) rest

/-- An entry reported as skipped (a `PatternError` with `Skip: true`). -/
def isSkipErr : MatchResult → Bool
  | MatchResult.patternErr _ true _ => true
  | _ => false

/-- An entry reported as failed (a `PatternError` with `Skip: false`). -/
def isFailErr : MatchResult → Bool
  | MatchResult.patternErr _ false _ => true
  | _ => false

/-! ## Pod security (`getSpec`, `validator.validatePodSecurity`) -/

/-- The location within the new resource the pod spec and metadata are read
from: `spec.template.spec` (workload kinds, decoded as `appsv1.Deployment`),
`spec.jobTemplate.spec.template.spec` (CronJob, decoded as
`batchv1.CronJob`), or `spec` (Pod, decoded as `corev1.Pod`). -/
inductive SpecPath where
  | templateSpec
  | jobTemplateSpec
  | specOnly
deriving DecidableEq, Repr

/-- The new resource as read by `getSpec`: its kind, together with the
possible failure of `MarshalJSON` / `json.Unmarshal` into the typed
workload object. -/
structure PodResource where
  kind : String
  unmarshalErr : Option String
deriving DecidableEq, Repr

/-- Result of `getSpec`: a pod spec at the given path; a marshal/unmarshal
error; or — for any other kind — the fall-through return of a nil `podSpec`,
nil `metadata` and nil error. -/
inductive GetSpecResult where
  | ok (path : SpecPath)
  | fail (e : String)
  | nilSpec
deriving DecidableEq, Repr

/-- `getSpec`: kind dispatch of the pod-spec extraction. For DaemonSet,
Deployment, Job, StatefulSet, ReplicaSet and ReplicationController the spec
is `spec.template.spec`; for CronJob `spec.jobTemplate.spec.template.spec`;
for Pod `spec`. Any other kind reaches the final
`return podSpec, metadata, err` with all three nil. -/
def getSpec (res : PodResource) : GetSpecResult :=
  if res.kind = "DaemonSet" ∨ res.kind = "Deployment" ∨ res.kind = "Job"
      ∨ res.kind = "StatefulSet" ∨ res.kind = "ReplicaSet"
      ∨ res.kind = "ReplicationController" then
    match res.unmarshalErr with
    | some e => GetSpecResult.fail e
    | none => GetSpecResult.ok SpecPath.templateSpec
  else if res.kind = "CronJob" then
    match res.unmarshalErr with
    | some e => GetSpecResult.fail e
    | none => GetSpecResult.ok SpecPath.jobTemplateSpec
  else if res.kind = "Pod" then
    match res.unmarshalErr with
    | some e => GetSpecResult.fail e
    | none => GetSpecResult.ok SpecPath.specOnly
  else GetSpecResult.nilSpec

/-- Result of `pss.EvaluatePod` (external PSS library): an unparseable API
version, or a verdict with the `FormatChecksPrint` rendering of the failing
checks. -/
inductive PSSResult where
  | versionErr (e : String)
  | evaluated (allowed : Bool) (checksStr : String)
deriving DecidableEq, Repr

/-- Outcome of `validator.validatePodSecurity`: a rule response, or the Go
runtime panic raised by `pod := &corev1.Pod{Spec: *podSpec, ...}` when
`getSpec` returned a nil `podSpec` (with a nil error). -/
inductive PodSecurityOutcome where
  | response (r : RuleResponse)
  | goPanic
deriving DecidableEq, Repr

/-- `validator.validatePodSecurity`: a `getSpec` error yields a rule Error;
a nil spec is dereferenced (panic); otherwise the synthesized pod is
evaluated — version parse error → rule Error, not allowed → Fail with the
PodSecurity violation message, allowed → Pass. -/
def validatePodSecurity (rule : Rule) (level version : String)
    (res : PodResource) (pssEval : SpecPath → PSSResult) : PodSecurityOutcome :=
  match getSpec res with
  | GetSpecResult.fail e =>
    PodSecurityOutcome.response (ruleError rule "Error while getting new resource" e)
  | GetSpecResult.nilSpec => PodSecurityOutcome.goPanic
  | GetSpecResult.ok path =>
    match pssEval path with
    | PSSResult.versionErr e =>
      PodSecurityOutcome.response
        (ruleError rule "failed to parse pod security api version" e)
    | PSSResult.evaluated allowed checksStr =>
      if allowed then
        PodSecurityOutcome.response
          (ruleResponse rule ("Validation rule '" ++ rule.name ++ "' passed.")
            RuleStatus.Pass)
      else
        PodSecurityOutcome.response
          (ruleResponse rule
            ("Validation rule '" ++ rule.name ++ "' failed. It violates PodSecurity \""
              ++ level ++ ":" ++ version ++ "\": " ++ checksStr)
            RuleStatus.Fail)

/-! ## Policy exceptions (`matchesException`, `hasPolicyExceptions`) -/

/-- A candidate `PolicyException` as seen by the engine: whether
`matched.CheckMatchesResources` succeeds against it (nil error = match), and
the result of `cache.MetaNamespaceKeyFunc` on it (the `namespace/name`
key, zero-valued `""` alongside an error). -/
structure PolicyException where
  matchesResource : Bool
  key : Except String String
deriving Repr

/-- `matchesException`: a `FindExceptions` failure propagates; otherwise the
first candidate whose match block matches the resource is returned (nil when
none does). -/
def matchesException (findResult : Except String (List PolicyException)) :
    Except String (Option PolicyException) :=
  match findResult with
  | Except.error e => Except.error e
  | Except.ok cands => Except.ok (cands.find? (fun c => c.matchesResource))

/-- `hasPolicyExceptions`: only `err == nil && exception != nil` produces a
rule response — Skip naming the exception key, or Error when the key
computation fails (the message then carries the zero-valued key). A lookup
error or no matching exception returns nil and the rule proceeds. -/
def hasPolicyExceptions (ruleName : String)
    (findResult : Except String (List PolicyException)) : Option RuleResponse :=
  match matchesException findResult with
  | Except.error _ => none
  | Except.ok none => none
  | Except.ok (some exc) =>
    match exc.key with
    | Except.error _ =>
      some { name := ruleName
             message := "failed to find matched exception "
             status := RuleStatus.Error }
    | Except.ok k =>
      some { name := ruleName
             message := "rule skipped due to policy exception " ++ k
             status := RuleStatus.Skip }

/-! ## Theorems -/

/-- Claim C1: in forEach element validation, for every list of elements: an
element whose nested validation returns Pass increments `applyCount`; Skip
continues to the next element; Fail causes an immediate return with status
Fail; an Error on a non-terminal element (`index < len(elements)-1`) is
dropped and iteration continues; and an Error on the last element causes a
return with status Error. -/
theorem forEach_element_aggregation (rule : Rule) (total applyCount index : Nat)
    (r : RuleResponse) (rest : List ElemEval) :
    (r.status = RuleStatus.Pass →
      validateElementsLoop rule total applyCount index (ElemEval.res (some r) :: rest)
        = validateElementsLoop rule total (applyCount + 1) (index + 1) rest)
  ∧ (r.status = RuleStatus.Skip →
      validateElementsLoop rule total applyCount index (ElemEval.res (some r) :: rest)
        = validateElementsLoop rule total applyCount (index + 1) rest)
  ∧ (r.status = RuleStatus.Fail →
      validateElementsLoop rule total applyCount index (ElemEval.res (some r) :: rest)
        = (ruleResponse rule ("validation failure: " ++ r.message) RuleStatus.Fail, applyCount))
  ∧ (r.status = RuleStatus.Error → index < total - 1 →
      validateElementsLoop rule total applyCount index (ElemEval.res (some r) :: rest)
        = validateElementsLoop rule total applyCount (index + 1) rest)
  ∧ (r.status = RuleStatus.Error → index = total - 1 →
      validateElementsLoop rule total applyCount index (ElemEval.res (some r) :: rest)
        = (ruleResponse rule ("validation failure: " ++ r.message) RuleStatus.Error,
            applyCount)) := by
  refine ⟨?_, ?_, ?_, ?_, ?_⟩
  · intro h; simp [validateElementsLoop, h]
  · intro h; simp [validateElementsLoop, h]
  · intro h; simp [validateElementsLoop, h]
  · intro h hidx; simp [validateElementsLoop, h, hidx]
  · intro h hidx; subst hidx; simp [validateElementsLoop, h]

/-- The last conjunct of C1 at a concrete input: a single-element list whose
nested validation errors returns the Error immediately with `applyCount` 0. -/
theorem forEach_element_aggregation_witness :
    validateElementsLoop { name := "r", validationMessage := "" } 1 0 0
        [ElemEval.res (some { name := "n", message := "m", status := RuleStatus.Error })]
      = (ruleResponse { name := "r", validationMessage := "" }
          ("validation failure: " ++ "m") RuleStatus.Error, 0) :=
  (forEach_element_aggregation { name := "r", validationMessage := "" } 1 0 0
      { name := "n", message := "m", status := RuleStatus.Error } []).2.2.2.2 rfl rfl

/-- When every forEach block completes (failed list evaluation or a Pass run
of its elements), the loop reaches the end with the accumulated count. -/
theorem validateForEachLoop_completes (rule : Rule) (blocks : List ForEachBlock)
    (h : ∀ b ∈ blocks, blockCompletes rule b = true) (n : Nat) :
    validateForEachLoop rule blocks n
      = Sum.inr (n + (blocks.map (blockApplyCount rule)).sum) := by
  induction blocks generalizing n with
  | nil => simp [validateForEachLoop]
  | cons b rest ih =>
    have hb := h b (List.mem_cons_self b rest)
    have hrest : ∀ x ∈ rest, blockCompletes rule x = true :=
      fun x hx => h x (List.mem_cons_of_mem b hx)
    cases b with
    | evalErr m =>
      simpa [validateForEachLoop, blockApplyCount] using ih hrest n
    | elems es =>
      have hp : (validateElements rule es).1.status = RuleStatus.Pass := by
        revert hb
        cases h' : (validateElements rule es).1.status <;> simp [blockCompletes, h']
      simp only [validateForEachLoop, hp, ne_eq, not_true_eq_false, if_false]
      rw [ih hrest]
      simp [blockApplyCount, Nat.add_assoc]

/-- Claim C6: for every forEach rule (whose preconditions pass) in which no
block forces an early return — each block either fails its list evaluation or
finishes its elements with Pass — the rule response is Skip when the total
count of passed elements across all blocks is zero (in particular for a
forEach over an empty element list) and Pass otherwise. -/
theorem forEach_applyCount_skip_or_pass (rule : Rule) (blocks : List ForEachBlock)
    (h : ∀ b ∈ blocks, blockCompletes rule b = true) :
    ((blocks.map (blockApplyCount rule)).sum = 0 →
      validateForEach rule (some blocks)
        = some (ruleResponse rule "rule skipped" RuleStatus.Skip))
  ∧ ((blocks.map (blockApplyCount rule)).sum ≠ 0 →
      validateForEach rule (some blocks)
        = some (ruleResponse rule "rule passed" RuleStatus.Pass)) := by
  constructor <;> intro hs <;>
    simp [validateForEach, validateForEachLoop_completes rule blocks h, hs]

/-- C6 at a concrete input: one block whose list is empty completes with
count 0, and the rule response is Skip. -/
theorem forEach_applyCount_skip_or_pass_witness :
    validateForEach { name := "r", validationMessage := "" } (some [ForEachBlock.elems []])
      = some (ruleResponse { name := "r", validationMessage := "" }
          "rule skipped" RuleStatus.Skip) :=
  (forEach_applyCount_skip_or_pass { name := "r", validationMessage := "" }
      [ForEachBlock.elems []] (by decide)).1 (by decide)

/-- Claim C10: a forEach block whose list expression fails to evaluate is
silently skipped (the loop continues with the same `applyCount`, adding no
Error response and no applied elements); consequently when every block's
list expression fails the rule response is Skip, never Error. -/
theorem forEach_list_eval_error_skipped (rule : Rule) (m : String)
    (rest blocks : List ForEachBlock) (n : Nat)
    (hall : ∀ b ∈ blocks, isEvalErr b = true) :
    (validateForEachLoop rule (ForEachBlock.evalErr m :: rest) n
      = validateForEachLoop rule rest n)
  ∧ (validateForEach rule (some blocks)
      = some (ruleResponse rule "rule skipped" RuleStatus.Skip)) := by
  constructor
  · rfl
  · have hc : ∀ b ∈ blocks, blockCompletes rule b = true := by
      intro b hb
      cases b with
      | evalErr _ => rfl
      | elems es => simpa [isEvalErr] using hall _ hb
    have hsum : (blocks.map (blockApplyCount rule)).sum = 0 := by
      apply List.sum_eq_zero
      intro x hx
      rcases List.mem_map.mp hx with ⟨b, hb, hbx⟩
      cases b with
      | evalErr _ => simpa [blockApplyCount] using hbx.symm
      | elems es => simpa [isEvalErr] using hall _ hb
    simp [validateForEach, validateForEachLoop_completes rule blocks hc, hsum]

/-- C10 at a concrete input: a single block with a failed list evaluation
yields Skip. -/
theorem forEach_list_eval_error_skipped_witness :
    validateForEach { name := "r", validationMessage := "" }
        (some [ForEachBlock.evalErr "jmespath error"])
      = some (ruleResponse { name := "r", validationMessage := "" }
          "rule skipped" RuleStatus.Skip) :=
  (forEach_list_eval_error_skipped { name := "r", validationMessage := "" }
      "jmespath error" [] [ForEachBlock.evalErr "jmespath error"] 0 (by decide)).2

/-- Claim C3: with `applyRules=one`, adding a rule response of status Pass
or Fail (when nothing applied before) breaks the loop immediately, while a
Skip or Error response does not break it; in particular with several
matching rules where the first passes, the response holds exactly that one
rule and the applied counter is 1. -/
theorem applyOne_short_circuit (resp : PolicyResponse) (r : RuleResponse)
    (rest : List (Option RuleResponse)) (h0 : resp.rulesAppliedCount = 0) :
    ((r.status = RuleStatus.Pass ∨ r.status = RuleStatus.Fail) →
      validateLoop ApplyRules.one resp (some r :: rest) = addRuleResponse resp r)
  ∧ ((r.status = RuleStatus.Skip ∨ r.status = RuleStatus.Error) →
      validateLoop ApplyRules.one resp (some r :: rest)
        = validateLoop ApplyRules.one (addRuleResponse resp r) rest)
  ∧ (r.status = RuleStatus.Pass →
      (validateLoop ApplyRules.one emptyPolicyResponse (some r :: rest)).rules = [r]
      ∧ (validateLoop ApplyRules.one emptyPolicyResponse
          (some r :: rest)).rulesAppliedCount = 1) := by
  refine ⟨?_, ?_, ?_⟩
  · intro h
    simp [validateLoop, addRuleResponse, h]
  · intro h
    rcases h with h | h <;> simp [validateLoop, addRuleResponse, h, h0]
  · intro h
    simp [validateLoop, addRuleResponse, h, emptyPolicyResponse]

/-- C3 at a concrete input (the ApplyOne scenario): three matching rules,
the first passes — the response has exactly one rule and applied = 1. -/
theorem applyOne_short_circuit_witness :
    (validateLoop ApplyRules.one emptyPolicyResponse
        (some { name := "r1", message := "", status := RuleStatus.Pass }
          :: [some { name := "r2", message := "", status := RuleStatus.Pass },
              some { name := "r3", message := "", status := RuleStatus.Pass }])).rules
      = [{ name := "r1", message := "", status := RuleStatus.Pass }]
    ∧ (validateLoop ApplyRules.one emptyPolicyResponse
        (some { name := "r1", message := "", status := RuleStatus.Pass }
          :: [some { name := "r2", message := "", status := RuleStatus.Pass },
              some { name := "r3", message := "", status := RuleStatus.Pass }])).rulesAppliedCount
      = 1 :=
  (applyOne_short_circuit emptyPolicyResponse
      { name := "r1", message := "", status := RuleStatus.Pass }
      [some { name := "r2", message := "", status := RuleStatus.Pass },
       some { name := "r3", message := "", status := RuleStatus.Pass }] rfl).2.2 rfl

/-- `addRuleResponse` preserves the counter invariants. -/
theorem addRuleResponse_counts (resp : PolicyResponse) (r : RuleResponse)
    (h1 : resp.rulesAppliedCount
      = countStatus RuleStatus.Pass resp.rules + countStatus RuleStatus.Fail resp.rules)
    (h2 : resp.rulesErrorCount = countStatus RuleStatus.Error resp.rules) :
    (addRuleResponse resp r).rulesAppliedCount
      = countStatus RuleStatus.Pass (addRuleResponse resp r).rules
        + countStatus RuleStatus.Fail (addRuleResponse resp r).rules
    ∧ (addRuleResponse resp r).rulesErrorCount
      = countStatus RuleStatus.Error (addRuleResponse resp r).rules := by
  cases hs : r.status <;>
    simp [addRuleResponse, countStatus, hs, List.filter_append, h1, h2] <;>
    omega

/-- The rule loop preserves the counter invariants, for any accumulator. -/
theorem validateLoop_counts (ar : ApplyRules) (outcomes : List (Option RuleResponse)) :
    ∀ resp : PolicyResponse,
      resp.rulesAppliedCount
          = countStatus RuleStatus.Pass resp.rules + countStatus RuleStatus.Fail resp.rules →
      resp.rulesErrorCount = countStatus RuleStatus.Error resp.rules →
      (validateLoop ar resp outcomes).rulesAppliedCount
          = countStatus RuleStatus.Pass (validateLoop ar resp outcomes).rules
            + countStatus RuleStatus.Fail (validateLoop ar resp outcomes).rules
        ∧ (validateLoop ar resp outcomes).rulesErrorCount
          = countStatus RuleStatus.Error (validateLoop ar resp outcomes).rules := by
  induction outcomes with
  | nil => exact fun resp h1 h2 => ⟨h1, h2⟩
  | cons o rest ih =>
    intro resp h1 h2
    cases o with
    | none => exact ih resp h1 h2
    | some r =>
      have hadd := addRuleResponse_counts resp r h1 h2
      simp only [validateLoop]
      split
      · exact hadd
      · exact ih _ hadd.1 hadd.2

/-- Claim C7: for every engine response produced by the validation driver,
the applied counter equals the number of rule responses with status Pass
plus the number with status Fail, and the errored counter equals the number
of rule responses with status Error. -/
theorem response_counters_invariant (pol : Policy) (newRes oldRes : Option ResourceId)
    (outcomes : List (Option RuleResponse)) :
    (validateResource pol newRes oldRes outcomes).rulesAppliedCount
        = countStatus RuleStatus.Pass (validateResource pol newRes oldRes outcomes).rules
          + countStatus RuleStatus.Fail (validateResource pol newRes oldRes outcomes).rules
      ∧ (validateResource pol newRes oldRes outcomes).rulesErrorCount
        = countStatus RuleStatus.Error (validateResource pol newRes oldRes outcomes).rules := by
  have hempty1 : emptyPolicyResponse.rulesAppliedCount
      = countStatus RuleStatus.Pass emptyPolicyResponse.rules
        + countStatus RuleStatus.Fail emptyPolicyResponse.rules := by
    simp [emptyPolicyResponse, countStatus]
  have hempty2 : emptyPolicyResponse.rulesErrorCount
      = countStatus RuleStatus.Error emptyPolicyResponse.rules := by
    simp [emptyPolicyResponse, countStatus]
  unfold validateResource
  split
  · split
    · exact ⟨hempty1, hempty2⟩
    · split
      · exact ⟨hempty1, hempty2⟩
      · exact validateLoop_counts pol.applyRules outcomes emptyPolicyResponse hempty1 hempty2
  · exact validateLoop_counts pol.applyRules outcomes emptyPolicyResponse hempty1 hempty2

/-- Claim C8: for every namespaced policy, a new resource whose namespace
differs from the policy's namespace yields the empty response — no rule is
evaluated and the rule list is empty. -/
theorem namespaced_policy_outside_namespace (pol : Policy) (r : ResourceId)
    (oldRes : Option ResourceId) (outcomes : List (Option RuleResponse))
    (hn : pol.isNamespaced = true) (hns : r.ns ≠ pol.ns) :
    validateResource pol (some r) oldRes outcomes = emptyPolicyResponse
    ∧ (validateResource pol (some r) oldRes outcomes).rules = [] := by
  have hout : outsideNamespace (some r) pol.ns = true := by
    simp [outsideNamespace, hns]
  refine ⟨?_, ?_⟩ <;> simp [validateResource, hn, hout, emptyPolicyResponse]

/-- C8 at a concrete input: a policy in namespace "a" against a resource in
namespace "b". -/
theorem namespaced_policy_outside_namespace_witness :
    validateResource
        { name := "p", ns := "a", isNamespaced := true, applyRules := ApplyRules.all }
        (some { ns := "b" }) none
        [some { name := "r1", message := "", status := RuleStatus.Pass }]
      = emptyPolicyResponse
    ∧ (validateResource
        { name := "p", ns := "a", isNamespaced := true, applyRules := ApplyRules.all }
        (some { ns := "b" }) none
        [some { name := "r1", message := "", status := RuleStatus.Pass }]).rules = [] :=
  namespaced_policy_outside_namespace
    { name := "p", ns := "a", isNamespaced := true, applyRules := ApplyRules.all }
    { ns := "b" } none
    [some { name := "r1", message := "", status := RuleStatus.Pass }]
    rfl (by decide)

/-- Claim C5: in single-pattern rule evaluation a pattern-match error maps
to the rule status as: `Skip: true` → Skip; empty Path → Error; non-empty
Path → Fail; and a successful match → Pass. -/
theorem pattern_error_status_mapping (rule : Rule) (substMsg : Except String String)
    (path msg : String) :
    patternStatus (validatePattern rule substMsg MatchResult.ok) = some RuleStatus.Pass
  ∧ patternStatus (validatePattern rule substMsg (MatchResult.patternErr path true msg))
      = some RuleStatus.Skip
  ∧ patternStatus (validatePattern rule substMsg (MatchResult.patternErr "" false msg))
      = some RuleStatus.Error
  ∧ (path ≠ "" →
      patternStatus (validatePattern rule substMsg (MatchResult.patternErr path false msg))
        = some RuleStatus.Fail) := by
  refine ⟨rfl, rfl, rfl, ?_⟩
  intro h
  simp [validatePattern, patternStatus, ruleResponse, h]

/-- C5 at a concrete input: a non-skip pattern error at path "/a" maps to
status Fail. -/
theorem pattern_error_status_mapping_witness :
    patternStatus (validatePattern { name := "r", validationMessage := "" }
        (Except.ok "msg") (MatchResult.patternErr "/a" false "mismatch"))
      = some RuleStatus.Fail :=
  (pattern_error_status_mapping { name := "r", validationMessage := "" }
      (Except.ok "msg") "/a" "mismatch").2.2.2 (by decide)

/-- Claim C2 (evidence): `getSpec` reads `spec.template.spec` for the six
workload kinds, `spec.jobTemplate.spec.template.spec` for CronJob and `spec`
for Pod; but for any other kind it returns a nil pod spec together with a
nil error, and `validatePodSecurity` then dereferences the nil spec — a Go
runtime panic, not a rule response of status Error as the specification
requires. -/
theorem podSecurity_kind_dispatch :
    getSpec { kind := "DaemonSet", unmarshalErr := none }
        = GetSpecResult.ok SpecPath.templateSpec
  ∧ getSpec { kind := "Deployment", unmarshalErr := none }
        = GetSpecResult.ok SpecPath.templateSpec
  ∧ getSpec { kind := "Job", unmarshalErr := none }
        = GetSpecResult.ok SpecPath.templateSpec
  ∧ getSpec { kind := "StatefulSet", unmarshalErr := none }
        = GetSpecResult.ok SpecPath.templateSpec
  ∧ getSpec { kind := "ReplicaSet", unmarshalErr := none }
        = GetSpecResult.ok SpecPath.templateSpec
  ∧ getSpec { kind := "ReplicationController", unmarshalErr := none }
        = GetSpecResult.ok SpecPath.templateSpec
  ∧ getSpec { kind := "CronJob", unmarshalErr := none }
        = GetSpecResult.ok SpecPath.jobTemplateSpec
  ∧ getSpec { kind := "Pod", unmarshalErr := none } = GetSpecResult.ok SpecPath.specOnly
  ∧ getSpec { kind := "Service", unmarshalErr := none } = GetSpecResult.nilSpec
  ∧ validatePodSecurity { name := "r", validationMessage := "" } "baseline" "latest"
        { kind := "Service", unmarshalErr := none } (fun _ => PSSResult.evaluated true "")
      = PodSecurityOutcome.goPanic := by
  decide

/-- Claim C9: a failing `FindExceptions` lookup produces no rule response
(the rule proceeds to normal validation); with a successful lookup only a
matched exception produces a response — Skip naming the exception key, or
Error when computing the key fails. -/
theorem policyExceptions_lookup (ruleName e k em : String)
    (cands : List PolicyException) (exc : PolicyException) :
    hasPolicyExceptions ruleName (Except.error e) = none
  ∧ (cands.find? (fun c => c.matchesResource) = none →
      hasPolicyExceptions ruleName (Except.ok cands) = none)
  ∧ (cands.find? (fun c => c.matchesResource) = some exc → exc.key = Except.ok k →
      hasPolicyExceptions ruleName (Except.ok cands)
        = some { name := ruleName
                 message := "rule skipped due to policy exception " ++ k
                 status := RuleStatus.Skip })
  ∧ (cands.find? (fun c => c.matchesResource) = some exc → exc.key = Except.error em →
      hasPolicyExceptions ruleName (Except.ok cands)
        = some { name := ruleName
                 message := "failed to find matched exception "
                 status := RuleStatus.Error }) := by
  refine ⟨rfl, ?_, ?_, ?_⟩
  · intro h; simp [hasPolicyExceptions, matchesException, h]
  · intro h hk; simp [hasPolicyExceptions, matchesException, h, hk]
  · intro h hk; simp [hasPolicyExceptions, matchesException, h, hk]

/-- C9 at a concrete input: one matching exception with key "ns/ex" skips
the rule. -/
theorem policyExceptions_lookup_witness :
    hasPolicyExceptions "r1"
        (Except.ok [{ matchesResource := true, key := Except.ok "ns/ex" }])
      = some { name := "r1"
               message := "rule skipped due to policy exception " ++ "ns/ex"
               status := RuleStatus.Skip } :=
  (policyExceptions_lookup "r1" "" "ns/ex" ""
      [{ matchesResource := true, key := Except.ok "ns/ex" }]
      { matchesResource := true, key := Except.ok "ns/ex" }).2.2.1 rfl rfl

/-- The anyPattern loop returns Pass at the first matching entry, whatever
was accumulated before. -/
theorem anyPatternLoop_first_ok (rule : Rule) :
    ∀ pre : List MatchResult, MatchResult.ok ∉ pre →
      ∀ (post : List MatchResult) (idx : Nat) (skipped failed : List String),
        anyPatternLoop rule idx (pre ++ MatchResult.ok :: post) skipped failed
          = ruleResponse rule
              ("validation rule '" ++ rule.name ++ "' anyPattern["
                ++ toString (idx + pre.length) ++ "] passed.") RuleStatus.Pass := by
  intro pre
  induction pre with
  | nil => intro _ post idx sk fl; simp [anyPatternLoop]
  | cons p rest ih =>
    intro h post idx sk fl
    have hrest : MatchResult.ok ∉ rest := fun hh => h (List.mem_cons_of_mem p hh)
    have harith : idx + (p :: rest).length = (idx + 1) + rest.length := by
      simp [List.length_cons]; omega
    cases p with
    | ok => exact absurd (List.mem_cons_self _ _) h
    | patternErr path skip msg =>
      cases skip
      · by_cases hpath : path = ""
        · simp only [List.cons_append, anyPatternLoop, Bool.false_eq_true, if_false,
            if_pos hpath, harith]
          exact ih hrest post (idx + 1) sk _
        · simp only [List.cons_append, anyPatternLoop, Bool.false_eq_true, if_false,
            if_neg hpath, harith]
          exact ih hrest post (idx + 1) sk _
      · simp only [List.cons_append, anyPatternLoop, if_true, harith]
        exact ih hrest post (idx + 1) _ fl
    | otherErr m =>
      simp only [List.cons_append, anyPatternLoop, harith]
      exact ih hrest post (idx + 1) sk fl

/-- When no entry matches, the anyPattern loop runs to the end and
finalizes with the accumulated skip and failure strings. -/
theorem anyPatternLoop_no_ok (rule : Rule) :
    ∀ results : List MatchResult, MatchResult.ok ∉ results →
      ∀ (idx : Nat) (skipped failed : List String),
        anyPatternLoop rule idx results skipped failed
          = anyPatternFinalize rule (skipped ++ collectSkips rule idx results)
              (failed ++ collectFails rule idx results) := by
  intro results
  induction results with
  | nil => intro _ idx sk fl; simp [anyPatternLoop, collectSkips, collectFails]
  | cons r rest ih =>
    intro h idx sk fl
    have hrest : MatchResult.ok ∉ rest := fun hh => h (List.mem_cons_of_mem r hh)
    cases r with
    | ok => exact absurd (List.mem_cons_self _ _) h
    | patternErr path skip msg =>
      cases skip
      · by_cases hpath : path = ""
        · simp only [anyPatternLoop, Bool.false_eq_true, if_false, if_pos hpath,
            collectSkips, collectFails, ih hrest]
          simp [hpath, List.append_assoc]
        · simp only [anyPatternLoop, Bool.false_eq_true, if_false, if_neg hpath,
            collectSkips, collectFails, ih hrest]
          simp [hpath, List.append_assoc]
      · simp only [anyPatternLoop, if_true, collectSkips, collectFails, ih hrest]
        simp [List.append_assoc]
    | otherErr m =>
      simp only [anyPatternLoop, collectSkips, collectFails]
      exact ih hrest (idx + 1) sk fl

/-- With only skip errors, no failure string is accumulated. -/
theorem collectFails_all_skip (rule : Rule) :
    ∀ results : List MatchResult, (∀ r ∈ results, isSkipErr r = true) →
      ∀ idx, collectFails rule idx results = [] := by
  intro results
  induction results with
  | nil => intro _ _; rfl
  | cons r rest ih =>
    intro h idx
    have hr := h r (List.mem_cons_self r rest)
    have hrest : ∀ x ∈ rest, isSkipErr x = true := fun x hx => h x (List.mem_cons_of_mem r hx)
    cases r with
    | ok => simp [isSkipErr] at hr
    | otherErr m => simp [isSkipErr] at hr
    | patternErr path skip msg =>
      cases skip
      · simp [isSkipErr] at hr
      · simp [collectFails, ih hrest]

/-- With only skip errors, one skip string is accumulated per entry. -/
theorem collectSkips_length_all_skip (rule : Rule) :
    ∀ results : List MatchResult, (∀ r ∈ results, isSkipErr r = true) →
      ∀ idx, (collectSkips rule idx results).length = results.length := by
  intro results
  induction results with
  | nil => intro _ _; rfl
  | cons r rest ih =>
    intro h idx
    have hr := h r (List.mem_cons_self r rest)
    have hrest : ∀ x ∈ rest, isSkipErr x = true := fun x hx => h x (List.mem_cons_of_mem r hx)
    cases r with
    | ok => simp [isSkipErr] at hr
    | otherErr m => simp [isSkipErr] at hr
    | patternErr path skip msg =>
      cases skip
      · simp [isSkipErr] at hr
      · simp [collectSkips, ih hrest]

/-- A failing entry leaves at least one failure string. -/
theorem collectFails_ne_nil (rule : Rule) :
    ∀ results : List MatchResult, (∃ r ∈ results, isFailErr r = true) →
      ∀ idx, collectFails rule idx results ≠ [] := by
  intro results
  induction results with
  | nil => rintro ⟨r, hr, _⟩; exact absurd hr (List.not_mem_nil r)
  | cons r rest ih =>
    rintro ⟨x, hx, hfx⟩ idx
    rcases List.mem_cons.mp hx with rfl | hx'
    · cases x with
      | ok => simp [isFailErr] at hfx
      | otherErr m => simp [isFailErr] at hfx
      | patternErr path skip msg =>
        cases skip
        · simp [collectFails]
        · simp [isFailErr] at hfx
    · cases r with
      | ok =>
        simp only [collectFails]
        exact ih ⟨x, hx', hfx⟩ (idx + 1)
      | otherErr m =>
        simp only [collectFails]
        exact ih ⟨x, hx', hfx⟩ (idx + 1)
      | patternErr path skip msg =>
        cases skip
        · simp [collectFails]
        · simp only [collectFails]
          exact ih ⟨x, hx', hfx⟩ (idx + 1)

/-- Claim C4 (amended: the Skip case additionally requires at least one
entry): if some entry matches, the response is Pass for the first matching
entry; if there is at least one entry, every entry yields a skip error and
none a failure, the response is Skip; if at least one entry fails and none
passes, the response is Fail with the aggregated per-entry error message. -/
theorem anyPattern_aggregation (rule : Rule) (results pre post : List MatchResult) :
    (results = pre ++ MatchResult.ok :: post → MatchResult.ok ∉ pre →
      validateAnyPattern rule results
        = ruleResponse rule
            ("validation rule '" ++ rule.name ++ "' anyPattern["
              ++ toString pre.length ++ "] passed.") RuleStatus.Pass)
  ∧ (results ≠ [] → (∀ r ∈ results, isSkipErr r = true) →
      validateAnyPattern rule results
        = ruleResponse rule (String.intercalate " " (collectSkips rule 0 results))
            RuleStatus.Skip)
  ∧ ((∀ r ∈ results, r ≠ MatchResult.ok) → (∃ r ∈ results, isFailErr r = true) →
      validateAnyPattern rule results
        = ruleResponse rule
            (buildAnyPatternErrorMessage rule (collectFails rule 0 results))
            RuleStatus.Fail) := by
  refine ⟨?_, ?_, ?_⟩
  · intro hres hpre
    subst hres
    have := anyPatternLoop_first_ok rule pre hpre post 0 [] []
    simpa [validateAnyPattern] using this
  · intro hne hallskip
    have hnook : MatchResult.ok ∉ results := by
      intro hmem
      simpa [isSkipErr] using hallskip _ hmem
    have hfails := collectFails_all_skip rule results hallskip 0
    have hlen := collectSkips_length_all_skip rule results hallskip 0
    have hpos : 0 < (collectSkips rule 0 results).length := by
      rw [hlen]
      exact List.length_pos.mpr hne
    rw [validateAnyPattern, anyPatternLoop_no_ok rule results hnook 0 [] []]
    simp [anyPatternFinalize, hfails, hpos]
  · intro hnook hfail
    have hnomem : MatchResult.ok ∉ results := fun hmem => hnook _ hmem rfl
    have hne := collectFails_ne_nil rule results hfail 0
    have hpos : 0 < (collectFails rule 0 results).length := List.length_pos.mpr hne
    rw [validateAnyPattern, anyPatternLoop_no_ok rule results hnomem 0 [] []]
    simp only [List.nil_append, anyPatternFinalize]
    rw [if_neg (by omega), if_pos hpos]

/-- Claim C4 as stated fails at the empty entry list: every (of zero)
entries yields a skip error and none a failure, yet the loop falls through
to the final Pass response, not Skip. -/
theorem anyPattern_empty_counterexample :
    (([] : List MatchResult).all isSkipErr = true)
    ∧ (validateAnyPattern { name := "r", validationMessage := "" } []).status
        = RuleStatus.Pass
    ∧ (validateAnyPattern { name := "r", validationMessage := "" } []).status
        ≠ RuleStatus.Skip := by
  decide

/-- The amended C4 at a concrete input: one skipping entry yields Skip with
the joined skip message. -/
theorem anyPattern_aggregation_witness :
    validateAnyPattern { name := "r", validationMessage := "" }
        [MatchResult.patternErr "/x" true "m"]
      = ruleResponse { name := "r", validationMessage := "" }
          (String.intercalate " "
            (collectSkips { name := "r", validationMessage := "" } 0
              [MatchResult.patternErr "/x" true "m"]))
          RuleStatus.Skip :=
  (anyPattern_aggregation { name := "r", validationMessage := "" }
      [MatchResult.patternErr "/x" true "m"] [] []).2.1 (by decide) (by decide)

end Kyverno
